import Mathlib

/-!
Verification development for the siesta declarative binary parser.

Shallow embedding of the source files `src/binary.py`, `src/format.py`,
`src/field_data.py` and `src/reader.py`.  Bytes are modelled as `Nat`
(each byte of real input lies in `[0, 256)`), offsets and byte counts as
`Nat`, Python `int` results as `Int`, preprocessing transforms as
optional functions `List Nat → List Nat`, and the `KeyError` /
`ValueError` exceptions raised during a read as `Except String`.
The reader's `while` loop can diverge in Python (for example when a
preprocessing transform keeps returning too few bytes for the cursor to
reach a gap boundary), so the recursive engine takes an explicit fuel
argument; `.error "fuel"` marks exhaustion of that embedding artifact.
-/

namespace Siesta

/-- Endianness of a byte source (`Binary.endianness` in `binary.py`). -/
inductive Endianness where
  | little
  | big

/-- A preprocessing transform, Python type `Callable[[bytes], bytes]`. -/
abbrev Preproc := List Nat → List Nat

/-- Application of an optional transform to a buffer: Python code applies
`func` when it is not `None` and returns the data unchanged otherwise. -/
def applyFunc : Option Preproc → List Nat → List Nat
  | none, bs => bs
  | some f, bs => f bs

/-- `compose` from `reader.py`: composes two optional functions, calling
the block preprocessor first, then the field preprocessor on the result. -/
def compose : Option Preproc → Option Preproc → Option Preproc
  | none, none => none
  | none, some f => some f
  | some g, none => some g
  | some g, some f => some (fun bs => f (g bs))

/-- A byte source (`Binary` in `binary.py`).  `file` is a root source
holding concrete bytes (`BinaryFile`, with its on-disk data inlined);
`block` is `BinaryBlock`: a view over another source plus an offset and
a declared length. -/
inductive Binary where
  | file (endianness : Endianness) (data : List Nat)
  | block (underlying : Binary) (offset : Nat) (length : Nat)

/-- `get_size`: a file reports its byte count (seek-to-end in the source);
a `BinaryBlock` reports its own fixed `length`. -/
def Binary.get_size : Binary → Nat
  | .file _ data => data.length
  | .block _ _ length => length

/-- A `BinaryBlock` inherits `endianness` from its underlying source. -/
def Binary.endianness : Binary → Endianness
  | .file e _ => e
  | .block u _ _ => u.endianness

/-- `get_bytes`.  `BinaryFile.get_bytes` seeks to `start`, reads at most
`length` bytes (truncating at end of file) and applies `func` to the
buffer.  `BinaryBlock.get_bytes` forwards to the underlying source after
adding its own offset — the source code performs no clamping against the
block's own declared length. -/
def Binary.get_bytes : Binary → Nat → Nat → Option Preproc → List Nat
  | .file _ data, start, length, func => applyFunc func ((data.drop start).take length)
  | .block u offset _, start, length, func => u.get_bytes (start + offset) length func

/-- Little-endian value of a byte string, `int.from_bytes(bs, "little")`. -/
def fromBytesLE : List Nat → Nat
  | [] => 0
  | b :: bs => b + 256 * fromBytesLE bs

/-- Big-endian value of a byte string, `int.from_bytes(bs, "big")`. -/
def fromBytesBE (bs : List Nat) : Nat :=
  bs.foldl (fun acc b => acc * 256 + b) 0

/-- `int.from_bytes(bs, endianness, signed=...)`.  The signed reading is
two's complement over the width of the bytes actually supplied. -/
def intFromBytes (bs : List Nat) (e : Endianness) (signed : Bool) : Int :=
  let u : Nat :=
    match e with
    | .little => fromBytesLE bs
    | .big => fromBytesBE bs
  if signed then
    if u < 2 ^ (8 * bs.length - 1) then (u : Int) else (u : Int) - 2 ^ (8 * bs.length)
  else (u : Int)

/-- `Binary.get_u8`: one byte at `loc` read unsigned. -/
def Binary.get_u8 (b : Binary) (loc : Nat) (func : Option Preproc) : Int :=
  intFromBytes (b.get_bytes loc 1 func) b.endianness false

/-- `Binary.get_i8`: one byte at `loc` read signed. -/
def Binary.get_i8 (b : Binary) (loc : Nat) (func : Option Preproc) : Int :=
  intFromBytes (b.get_bytes loc 1 func) b.endianness true

/-- `Binary.get_u16`: the two bytes at `loc` read unsigned.  The call
never fails: when fewer than two bytes remain, `get_bytes` silently
returns a shorter buffer and `int.from_bytes` decodes it as-is. -/
def Binary.get_u16 (b : Binary) (loc : Nat) (func : Option Preproc) : Int :=
  intFromBytes (b.get_bytes loc 2 func) b.endianness false

/-- `Binary.get_i16`: the two bytes at `loc` read signed. -/
def Binary.get_i16 (b : Binary) (loc : Nat) (func : Option Preproc) : Int :=
  intFromBytes (b.get_bytes loc 2 func) b.endianness true

/-- `Binary.get_u32`: the four bytes at `loc` read unsigned. -/
def Binary.get_u32 (b : Binary) (loc : Nat) (func : Option Preproc) : Int :=
  intFromBytes (b.get_bytes loc 4 func) b.endianness false

/-- `Binary.get_i32`: the four bytes at `loc` read signed. -/
def Binary.get_i32 (b : Binary) (loc : Nat) (func : Option Preproc) : Int :=
  intFromBytes (b.get_bytes loc 4 func) b.endianness true

/-- `Binary.get_u64`: the eight bytes at `loc` read unsigned. -/
def Binary.get_u64 (b : Binary) (loc : Nat) (func : Option Preproc) : Int :=
  intFromBytes (b.get_bytes loc 8 func) b.endianness false

/-- `Binary.get_i64`: the eight bytes at `loc` read signed. -/
def Binary.get_i64 (b : Binary) (loc : Nat) (func : Option Preproc) : Int :=
  intFromBytes (b.get_bytes loc 8 func) b.endianness true

/-- Length specification of a `NestedBlockField`: Python `int | str`
(a literal byte count or the name of a variable). -/
inductive LengthSpec where
  | lit (n : Nat)
  | var (s : String)

/-- The field-descriptor model of `format.py` as a closed sum:
`UnknownField`, `IntField`, `NestedBlockField`, `StructField`. -/
inductive Field where
  | UnknownField (length : Nat) (start : Option Nat)
  | IntField (bits : Nat) (signed : Bool) (name : Option String) (start : Option Nat)
      (func : Option Preproc)
  | NestedBlockField (start : Option Nat) (length : Option LengthSpec) (name : Option String)
      (subfields : List Field) (func : Option Preproc)
  | StructField (start : Option Nat) (length : Option Nat) (name : Option String)
      (fields : List Field) (func : Option Preproc)

/-- `get_type` of each descriptor class (`IntField` builds `"u8"`,
`"i16"`, ... from signedness and bit count). -/
def Field.get_type : Field → String
  | .UnknownField _ _ => "unknown"
  | .IntField bits signed _ _ _ => (if signed then "i" else "u") ++ toString bits
  | .NestedBlockField _ _ _ _ _ => "nested"
  | .StructField _ _ _ _ _ => "struct"

/-- `get_start` of each descriptor class. -/
def Field.get_start : Field → Option Nat
  | .UnknownField _ start => start
  | .IntField _ _ _ start _ => start
  | .NestedBlockField start _ _ _ _ => start
  | .StructField start _ _ _ _ => start

/-- `get_name` of each descriptor class (`UnknownField` has none). -/
def Field.get_name : Field → Option String
  | .UnknownField _ _ => none
  | .IntField _ _ name _ _ => name
  | .NestedBlockField _ _ name _ _ => name
  | .StructField _ _ name _ _ => name

/-- `get_preprocessor` of each descriptor class (`UnknownField` has none). -/
def Field.get_preprocessor : Field → Option Preproc
  | .UnknownField _ _ => none
  | .IntField _ _ _ _ func => func
  | .NestedBlockField _ _ _ _ func => func
  | .StructField _ _ _ _ func => func

/-- Python `hex(n)` for the generated default labels (naturals only,
which is all the reader ever passes). -/
def hexString (n : Nat) : String :=
  "0x" ++ String.mk (Nat.toDigits 16 n)

/-- `Field.get_label`: the field's name when present, otherwise the
generated `untitled_<type>_field_<hex offset>` default. -/
def Field.get_label (f : Field) (loc : Nat) : String :=
  match f.get_name with
  | some n => n
  | none => "untitled_" ++ f.get_type ++ "_field_" ++ hexString loc

mutual
/-- A decoded Python value stored in a `FieldData` node or in the scope:
an `int`, a `bytes` buffer, a list of child nodes, or `None`. -/
inductive Value where
  | vint (i : Int) : Value
  | vbytes (bs : List Nat) : Value
  | vlist (l : List FieldData) : Value
  | vnull : Value

/-- `FieldData` from `field_data.py`: name, type tag, location, value. -/
inductive FieldData where
  | mk (name : String) (type : String) (location : Nat) (val : Value) : FieldData
end

/-- The scope of name bindings, Python `self.vars : dict[str, Any]`.
Binding prepends and lookup takes the first match, so a later binding of
the same name overwrites the earlier one, as dict assignment does. -/
abbrev Vars := List (String × Value)

/-- Lookup of a name in the scope (Python `read_vars[name]`): first match. -/
def lookupVar : Vars → String → Option Value
  | [], _ => none
  | (k, v) :: rest, n => if k = n then some v else lookupVar rest n

/-- Binding a name in the scope (Python `self.vars[name] = val`). -/
def bindVar (n : String) (v : Value) (m : Vars) : Vars :=
  (n, v) :: m

/-- `NestedBlockField.get_length` from `format.py`: a string spec is
looked up in `read_vars`, raising `KeyError` when absent and
`ValueError` when the bound value is not an `int`; an integer spec is
returned directly; a missing spec raises `ValueError`.  Byte counts are
modelled as `Nat`, so an `int` value is taken through `Int.toNat`; for a
negative bound value Python builds a block whose (negative) size stops
the sub-read immediately, which is observably the size-`0` block this
clamping produces. -/
def get_length (length : Option LengthSpec) (read_vars : Vars) : Except String Nat :=
  match length with
  | some (.var s) =>
    match lookupVar read_vars s with
    | none => .error ("KeyError: " ++ s)
    | some (Value.vint i) => .ok i.toNat
    | some _ => .error ("The value of variable " ++ s ++ " was not an int or did not exist")
  | some (.lit n) => .ok n
  | none => .error "Size specification for a NestedBlockField must be an int or a string"

/-- `ReaderOpts` from `reader.py`. -/
structure ReaderOpts where
  include_gaps : Bool

/-- `Reader.__should_fill_blanks`. -/
def should_fill_blanks (opts : ReaderOpts) : Bool :=
  opts.include_gaps

/-- The inline guard opening `Reader.__get_next_field`:
`binary_size is not None and loc >= binary_size`. -/
def pastEnd (loc : Nat) : Option Nat → Bool
  | some sz => sz ≤ loc
  | none => false

/-- `Reader.__get_next_field`.  The Python mutates the queue by
`pop(0)`; here the chosen field is returned together with the queue that
remains after the step.  `none` means consumption of this struct stops. -/
def get_next_field (opts : ReaderOpts) (queue : List Field) (loc : Nat)
    (binary_size : Option Nat) : Option (Field × List Field) :=
  if pastEnd loc binary_size then none
  else
    match queue with
    | [] =>
      match binary_size with
      | some sz =>
        if should_fill_blanks opts then some (Field.UnknownField (sz - loc) (some loc), [])
        else none
      | none => none
    | f :: rest =>
      match f.get_start with
      | some s =>
        if loc < s then
          if should_fill_blanks opts then some (Field.UnknownField (s - loc) (some loc), f :: rest)
          else some (f, rest)
        else some (f, rest)
      | none => some (f, rest)

/-- The width-dispatch of `Reader.__consume_field`'s `match` statement
for integer fields: the new cursor and decoded value for each recognised
`get_type` string (`"u8"`, `"i8"`, ..., `"i64"`).  A width outside
{8,16,32,64} would produce a type string matching no case, falling into
`case _: pass`: value `None`, cursor left at the start byte. -/
def intFieldStep (binary : Binary) (bits : Nat) (signed : Bool) (start_byte : Nat)
    (preprocessor : Option Preproc) : Nat × Value :=
  match bits, signed with
  | 8, false => (start_byte + 1, Value.vint (binary.get_u8 start_byte preprocessor))
  | 8, true => (start_byte + 1, Value.vint (binary.get_i8 start_byte preprocessor))
  | 16, false => (start_byte + 2, Value.vint (binary.get_u16 start_byte preprocessor))
  | 16, true => (start_byte + 2, Value.vint (binary.get_i16 start_byte preprocessor))
  | 32, false => (start_byte + 4, Value.vint (binary.get_u32 start_byte preprocessor))
  | 32, true => (start_byte + 4, Value.vint (binary.get_i32 start_byte preprocessor))
  | 64, false => (start_byte + 8, Value.vint (binary.get_u64 start_byte preprocessor))
  | 64, true => (start_byte + 8, Value.vint (binary.get_i64 start_byte preprocessor))
  | _, _ => (start_byte, Value.vnull)

/-- The common tail of `Reader.__consume_field` (lines 140-145): bind the
value under the field's name when it has one, build the `FieldData`
node, return the new cursor. -/
def finishField (field : Field) (start_byte new_loc : Nat) (val : Value) (vars : Vars) :
    Except String (Nat × FieldData × Vars) :=
  let vars1 :=
    match field.get_name with
    | some n => bindVar n val vars
    | none => vars
  .ok (new_loc, FieldData.mk (field.get_label start_byte) field.get_type start_byte val, vars1)

mutual
/-- `Reader.__consume_field`.  `pre` is the reader's ambient transform
(`self.preprocess`), `vars` the reader's scope (`self.vars`).  Note the
`nested` arm of the source never assigns `new_loc`, so the cursor
returned for a nested block is its start byte, and the sub-reader is
constructed with a fresh empty scope. -/
def consume_field (fuel : Nat) (opts : ReaderOpts) (pre : Option Preproc) (binary : Binary)
    (field : Field) (cur_loc : Nat) (vars : Vars) : Except String (Nat × FieldData × Vars) :=
  match fuel with
  | 0 => .error "fuel"
  | fuel + 1 =>
    let start_byte := (field.get_start).getD cur_loc
    let preprocessor := compose pre field.get_preprocessor
    match field with
    | .UnknownField length _ =>
      let bs := binary.get_bytes start_byte length preprocessor
      finishField field start_byte (start_byte + bs.length) (Value.vbytes bs) vars
    | .IntField bits signed _ _ _ =>
      let step := intFieldStep binary bits signed start_byte preprocessor
      finishField field start_byte step.1 step.2 vars
    | .NestedBlockField _ length _ subfields _ =>
      Except.bind (get_length length vars) (fun len =>
        Except.bind
          (read_binary fuel subfields opts preprocessor (Binary.block binary start_byte len) [])
          (fun sub => finishField field start_byte start_byte (Value.vlist sub.1) vars))
    | .StructField _ _ _ _ _ =>
      finishField field start_byte start_byte Value.vnull vars

/-- The `while True` loop of `Reader.__consume_struct`: repeatedly pick
the next field and resolve it, accumulating the completed `FieldData`
nodes in order, until `get_next_field` reports no more fields. -/
def consume_struct_loop (fuel : Nat) (opts : ReaderOpts) (pre : Option Preproc) (binary : Binary)
    (struct_length : Option Nat) (queue : List Field) (cur_loc : Nat) (vars : Vars) :
    Except String (Nat × List FieldData × Vars) :=
  match fuel with
  | 0 => .error "fuel"
  | fuel + 1 =>
    match get_next_field opts queue cur_loc struct_length with
    | none => .ok (cur_loc, [], vars)
    | some (f, queue1) =>
      Except.bind (consume_field fuel opts pre binary f cur_loc vars) (fun r =>
        Except.bind (consume_struct_loop fuel opts pre binary struct_length queue1 r.1 r.2.2)
          (fun r2 => .ok (r2.1, r.2.1 :: r2.2.1, r2.2.2)))

/-- `Reader.__consume_struct`: run the loop over the struct's children
bounded by the struct's length, and wrap the completed nodes in a
`FieldData` node labelled at `loc`. -/
def consume_struct (fuel : Nat) (opts : ReaderOpts) (pre : Option Preproc) (sf : Field)
    (binary : Binary) (loc : Nat) (vars : Vars) : Except String (Nat × FieldData × Vars) :=
  match fuel with
  | 0 => .error "fuel"
  | fuel + 1 =>
    match sf with
    | .StructField _ length _ field_list _ =>
      Except.bind (consume_struct_loop fuel opts pre binary length field_list loc vars) (fun r =>
        .ok (r.1, FieldData.mk (sf.get_label loc) "struct" loc (Value.vlist r.2.1), r.2.2))
    | _ => .error "consume_struct expects a StructField"

/-- `Reader.read_binary`: wrap the descriptor sequence in an implicit
top-level `StructField(0, binary.get_size(), None, fields)`, consume it
from cursor `0`, and return the wrapper node's value (its child list).
`vars` is the reader's scope, created empty at construction and never
reset between reads. -/
def read_binary (fuel : Nat) (fields : List Field) (opts : ReaderOpts) (pre : Option Preproc)
    (binary : Binary) (vars : Vars) : Except String (List FieldData × Vars) :=
  match fuel with
  | 0 => .error "fuel"
  | fuel + 1 =>
    Except.bind
      (consume_struct fuel opts pre
        (Field.StructField (some 0) (some binary.get_size) none fields none) binary 0 vars)
      (fun r =>
        match r.2.1 with
        | FieldData.mk _ _ _ (Value.vlist l) => .ok (l, r.2.2)
        | FieldData.mk _ _ _ _ => .error "unreachable")
end

/-! ### Helper lemmas about the scope -/

/-- A successful lookup is unaffected by bindings appended behind the
scope (older bindings are shadowed by newer ones). -/
theorem lookupVar_append (w v0 : Vars) (n : String) (x : Value)
    (h : lookupVar w n = some x) : lookupVar (w ++ v0) n = some x := by
  induction w with
  | nil => simp [lookupVar] at h
  | cons p rest ih =>
    obtain ⟨k, v⟩ := p
    simp only [lookupVar, List.cons_append] at h ⊢
    by_cases hk : k = n
    · simpa [hk] using h
    · rw [if_neg hk] at h ⊢
      exact ih h

/-- A successful length resolution is unaffected by bindings appended
behind the scope. -/
theorem get_length_append (ls : Option LengthSpec) (w v0 : Vars) (k : Nat)
    (h : get_length ls w = .ok k) : get_length ls (w ++ v0) = .ok k := by
  match ls with
  | none => simp [get_length] at h
  | some (.lit n) => simpa [get_length] using h
  | some (.var s) =>
    simp only [get_length] at h ⊢
    cases hl : lookupVar w s with
    | none => rw [hl] at h; simp at h
    | some val =>
      rw [hl] at h
      rw [lookupVar_append w v0 s val hl]
      cases val <;> simp_all

/-- Reduction of exception propagation on a successful intermediate
result. -/
theorem except_bind_ok {α β : Type} (a : α) (f : α → Except String β) :
    Except.bind (Except.ok a) f = f a := rfl

/-- Reduction of exception propagation on a failing intermediate result. -/
theorem except_bind_error {α β : Type} (e : String) (f : α → Except String β) :
    Except.bind (Except.error e) f = (Except.error e : Except String β) := rfl

/-- `finishField` under a scope extended behind by `v0`: same node, same
cursor, the output scope extended behind by the same `v0`. -/
theorem finishField_append (f : Field) (sb nl : Nat) (v : Value) (w v0 w1 : Vars)
    (l : Nat) (d : FieldData) (h : finishField f sb nl v w = .ok (l, d, w1)) :
    finishField f sb nl v (w ++ v0) = .ok (l, d, w1 ++ v0) := by
  cases hn : f.get_name with
  | none => simp_all [finishField]
  | some n =>
    simp only [finishField, hn, bindVar, Except.ok.injEq, Prod.mk.injEq] at h ⊢
    obtain ⟨h1, h2, h3⟩ := h
    subst h3
    exact ⟨h1, h2, rfl⟩

/-- The cursor returned by a successful `finishField` is its `new_loc`
argument. -/
theorem finishField_loc (f : Field) (sb nl : Nat) (v : Value) (w w1 : Vars)
    (l : Nat) (d : FieldData) (h : finishField f sb nl v w = .ok (l, d, w1)) :
    l = nl := by
  cases hn : f.get_name <;> simp_all [finishField]

/-- The scope returned by a successful `finishField` extends its input
scope in front. -/
theorem finishField_suffix (f : Field) (sb nl : Nat) (v : Value) (w w1 : Vars)
    (l : Nat) (d : FieldData) (h : finishField f sb nl v w = .ok (l, d, w1)) :
    ∃ delta, w1 = delta ++ w := by
  cases hn : f.get_name with
  | none =>
    refine ⟨[], ?_⟩
    simp_all [finishField]
  | some n =>
    refine ⟨[(n, v)], ?_⟩
    simp_all [finishField, bindVar]

/-- The integer-width dispatch never moves the cursor backwards. -/
theorem intFieldStep_fst_ge (binary : Binary) (bits : Nat) (signed : Bool)
    (start_byte : Nat) (p : Option Preproc) :
    start_byte ≤ (intFieldStep binary bits signed start_byte p).1 := by
  unfold intFieldStep
  split <;> simp

/-! ### Append-invariance of a run

A successful resolution step started from scope `w` behaves identically
when started from `w ++ v0`: newer bindings shadow older ones, every
lookup the step performed succeeded in `w` alone, and the nested
sub-reads always start from a fresh empty scope.  This is the engine
fact behind re-reading with the same configuration. -/

/-- Append-invariance for `consume_field`. -/
theorem consume_field_append (fuel : Nat) (opts : ReaderOpts) (pre : Option Preproc)
    (binary : Binary) (field : Field) (cur_loc : Nat) (w v0 w1 : Vars)
    (l : Nat) (d : FieldData)
    (h : consume_field fuel opts pre binary field cur_loc w = .ok (l, d, w1)) :
    consume_field fuel opts pre binary field cur_loc (w ++ v0) = .ok (l, d, w1 ++ v0) := by
  cases fuel with
  | zero => simp [consume_field] at h
  | succ n =>
    cases field with
    | UnknownField length start =>
      simp only [consume_field] at h ⊢
      exact finishField_append _ _ _ _ _ _ _ _ _ h
    | IntField bits signed name start func =>
      simp only [consume_field] at h ⊢
      exact finishField_append _ _ _ _ _ _ _ _ _ h
    | StructField start length name field_list func =>
      simp only [consume_field] at h ⊢
      exact finishField_append _ _ _ _ _ _ _ _ _ h
    | NestedBlockField start length name subfields func =>
      simp only [consume_field] at h ⊢
      cases hg : get_length length w with
      | error e =>
        simp only [hg, except_bind_error] at h
        exact Except.noConfusion h
      | ok len =>
        simp only [hg, except_bind_ok] at h
        simp only [get_length_append length w v0 len hg, except_bind_ok]
        cases hr : read_binary n subfields opts
            (compose pre (Field.NestedBlockField start length name subfields func).get_preprocessor)
            (Binary.block binary
              ((Field.NestedBlockField start length name subfields func).get_start.getD cur_loc) len)
            [] with
        | error e =>
          simp only [hr, except_bind_error] at h
          exact Except.noConfusion h
        | ok sub =>
          simp only [hr, except_bind_ok] at h ⊢
          exact finishField_append _ _ _ _ _ _ _ _ _ h

/-- Append-invariance for the struct consumption loop. -/
theorem consume_struct_loop_append (fuel : Nat) :
    ∀ (opts : ReaderOpts) (pre : Option Preproc) (binary : Binary)
      (struct_length : Option Nat) (queue : List Field) (cur_loc : Nat) (w v0 w1 : Vars)
      (l : Nat) (ds : List FieldData),
      consume_struct_loop fuel opts pre binary struct_length queue cur_loc w = .ok (l, ds, w1) →
      consume_struct_loop fuel opts pre binary struct_length queue cur_loc (w ++ v0)
        = .ok (l, ds, w1 ++ v0) := by
  induction fuel with
  | zero =>
    intro opts pre binary sl queue loc w v0 w1 l ds h
    simp [consume_struct_loop] at h
  | succ n ih =>
    intro opts pre binary sl queue loc w v0 w1 l ds h
    simp only [consume_struct_loop] at h ⊢
    cases hn : get_next_field opts queue loc sl with
    | none =>
      simp only [hn, Except.ok.injEq, Prod.mk.injEq] at h ⊢
      obtain ⟨h1, h2, h3⟩ := h
      subst h1 h2 h3
      exact ⟨rfl, rfl, rfl⟩
    | some pq =>
      obtain ⟨f, queue1⟩ := pq
      simp only [hn] at h ⊢
      cases hc : consume_field n opts pre binary f loc w with
      | error e =>
        simp only [hc, except_bind_error] at h
        exact Except.noConfusion h
      | ok r =>
        simp only [hc, except_bind_ok] at h
        simp only [consume_field_append n opts pre binary f loc w v0 r.2.2 r.1 r.2.1 hc,
          except_bind_ok]
        cases hl2 : consume_struct_loop n opts pre binary sl queue1 r.1 r.2.2 with
        | error e =>
          simp only [hl2, except_bind_error] at h
          exact Except.noConfusion h
        | ok r2 =>
          simp only [hl2, except_bind_ok] at h
          simp only [ih opts pre binary sl queue1 r.1 r.2.2 v0 r2.2.2 r2.1 r2.2.1 hl2,
            except_bind_ok]
          simp only [Except.ok.injEq, Prod.mk.injEq] at h ⊢
          obtain ⟨h1, h2, h3⟩ := h
          subst h1 h2 h3
          exact ⟨rfl, rfl, rfl⟩

/-- Append-invariance for `consume_struct`. -/
theorem consume_struct_append (fuel : Nat) (opts : ReaderOpts) (pre : Option Preproc)
    (sf : Field) (binary : Binary) (loc : Nat) (w v0 w1 : Vars)
    (l : Nat) (d : FieldData)
    (h : consume_struct fuel opts pre sf binary loc w = .ok (l, d, w1)) :
    consume_struct fuel opts pre sf binary loc (w ++ v0) = .ok (l, d, w1 ++ v0) := by
  cases fuel with
  | zero => simp [consume_struct] at h
  | succ n =>
    cases sf with
    | StructField start length name field_list func =>
      simp only [consume_struct] at h ⊢
      cases hl : consume_struct_loop n opts pre binary length field_list loc w with
      | error e =>
        simp only [hl, except_bind_error] at h
        exact Except.noConfusion h
      | ok r =>
        simp only [hl, except_bind_ok] at h
        simp only [consume_struct_loop_append n opts pre binary length field_list loc w v0 r.2.2
          r.1 r.2.1 hl, except_bind_ok]
        simp only [Except.ok.injEq, Prod.mk.injEq] at h ⊢
        obtain ⟨h1, h2, h3⟩ := h
        subst h1 h2 h3
        exact ⟨rfl, rfl, rfl⟩
    | UnknownField length start => simp [consume_struct] at h
    | IntField bits signed name start func => simp [consume_struct] at h
    | NestedBlockField start length name subfields func => simp [consume_struct] at h

/-- Append-invariance for `read_binary`: a read that succeeds from scope
`w` also succeeds from `w ++ v0`, with the same result tree. -/
theorem read_binary_append (fuel : Nat) (fields : List Field) (opts : ReaderOpts)
    (pre : Option Preproc) (binary : Binary) (w v0 w1 : Vars) (res : List FieldData)
    (h : read_binary fuel fields opts pre binary w = .ok (res, w1)) :
    read_binary fuel fields opts pre binary (w ++ v0) = .ok (res, w1 ++ v0) := by
  cases fuel with
  | zero => simp [read_binary] at h
  | succ n =>
    simp only [read_binary] at h ⊢
    cases hc : consume_struct n opts pre
        (Field.StructField (some 0) (some binary.get_size) none fields none) binary 0 w with
    | error e =>
      simp only [hc, except_bind_error] at h
      exact Except.noConfusion h
    | ok r =>
      simp only [hc, except_bind_ok] at h
      simp only [consume_struct_append n opts pre _ binary 0 w v0 r.2.2 r.1 r.2.1 hc,
        except_bind_ok]
      obtain ⟨a, d, vars1⟩ := r
      obtain ⟨dn, dt, dl, dv⟩ := d
      cases dv <;> simp_all

/-! ### The scope only grows during a run -/

/-- A successful `consume_field` extends the scope it was given in
front; it never removes or reorders existing bindings. -/
theorem consume_field_suffix (fuel : Nat) (opts : ReaderOpts) (pre : Option Preproc)
    (binary : Binary) (field : Field) (cur_loc : Nat) (w w1 : Vars)
    (l : Nat) (d : FieldData)
    (h : consume_field fuel opts pre binary field cur_loc w = .ok (l, d, w1)) :
    ∃ delta, w1 = delta ++ w := by
  cases fuel with
  | zero => simp [consume_field] at h
  | succ n =>
    cases field with
    | UnknownField length start =>
      simp only [consume_field] at h
      exact finishField_suffix _ _ _ _ _ _ _ _ h
    | IntField bits signed name start func =>
      simp only [consume_field] at h
      exact finishField_suffix _ _ _ _ _ _ _ _ h
    | StructField start length name field_list func =>
      simp only [consume_field] at h
      exact finishField_suffix _ _ _ _ _ _ _ _ h
    | NestedBlockField start length name subfields func =>
      simp only [consume_field] at h
      cases hg : get_length length w with
      | error e =>
        simp only [hg, except_bind_error] at h
        exact Except.noConfusion h
      | ok len =>
        simp only [hg, except_bind_ok] at h
        cases hr : read_binary n subfields opts
            (compose pre (Field.NestedBlockField start length name subfields func).get_preprocessor)
            (Binary.block binary
              ((Field.NestedBlockField start length name subfields func).get_start.getD cur_loc) len)
            [] with
        | error e =>
          simp only [hr, except_bind_error] at h
          exact Except.noConfusion h
        | ok sub =>
          simp only [hr, except_bind_ok] at h
          exact finishField_suffix _ _ _ _ _ _ _ _ h

/-- The struct consumption loop extends the scope it was given in front. -/
theorem consume_struct_loop_suffix (fuel : Nat) :
    ∀ (opts : ReaderOpts) (pre : Option Preproc) (binary : Binary)
      (struct_length : Option Nat) (queue : List Field) (cur_loc : Nat) (w w1 : Vars)
      (l : Nat) (ds : List FieldData),
      consume_struct_loop fuel opts pre binary struct_length queue cur_loc w = .ok (l, ds, w1) →
      ∃ delta, w1 = delta ++ w := by
  induction fuel with
  | zero =>
    intro opts pre binary sl queue loc w w1 l ds h
    simp [consume_struct_loop] at h
  | succ n ih =>
    intro opts pre binary sl queue loc w w1 l ds h
    simp only [consume_struct_loop] at h
    cases hn : get_next_field opts queue loc sl with
    | none =>
      simp only [hn, Except.ok.injEq, Prod.mk.injEq] at h
      exact ⟨[], h.2.2.symm⟩
    | some pq =>
      obtain ⟨f, queue1⟩ := pq
      simp only [hn] at h
      cases hc : consume_field n opts pre binary f loc w with
      | error e =>
        simp only [hc, except_bind_error] at h
        exact Except.noConfusion h
      | ok r =>
        simp only [hc, except_bind_ok] at h
        cases hl2 : consume_struct_loop n opts pre binary sl queue1 r.1 r.2.2 with
        | error e =>
          simp only [hl2, except_bind_error] at h
          exact Except.noConfusion h
        | ok r2 =>
          simp only [hl2, except_bind_ok, Except.ok.injEq, Prod.mk.injEq] at h
          obtain ⟨d1, h1⟩ := consume_field_suffix n opts pre binary f loc w r.2.2 r.1 r.2.1 hc
          obtain ⟨d2, h2⟩ := ih opts pre binary sl queue1 r.1 r.2.2 r2.2.2 r2.1 r2.2.1 hl2
          refine ⟨d2 ++ d1, ?_⟩
          rw [← h.2.2, h2, h1, List.append_assoc]

/-- `read_binary` extends the scope it was given in front: no binding
present when a read starts is removed by the read. -/
theorem read_binary_suffix (fuel : Nat) (fields : List Field) (opts : ReaderOpts)
    (pre : Option Preproc) (binary : Binary) (w w1 : Vars) (res : List FieldData)
    (h : read_binary fuel fields opts pre binary w = .ok (res, w1)) :
    ∃ delta, w1 = delta ++ w := by
  cases fuel with
  | zero => simp [read_binary] at h
  | succ n =>
    simp only [read_binary] at h
    cases hc : consume_struct n opts pre
        (Field.StructField (some 0) (some binary.get_size) none fields none) binary 0 w with
    | error e =>
      simp only [hc, except_bind_error] at h
      exact Except.noConfusion h
    | ok r =>
      simp only [hc, except_bind_ok] at h
      cases n with
      | zero => simp [consume_struct] at hc
      | succ m =>
        simp only [consume_struct] at hc
        cases hl : consume_struct_loop m opts pre binary (some binary.get_size) fields 0 w with
        | error e =>
          simp only [hl, except_bind_error] at hc
          exact Except.noConfusion hc
        | ok r2 =>
          simp only [hl, except_bind_ok, Except.ok.injEq] at hc
          obtain ⟨delta, hsuf⟩ := consume_struct_loop_suffix m opts pre binary
            (some binary.get_size) fields 0 w r2.2.2 r2.1 r2.2.1 hl
          refine ⟨delta, ?_⟩
          obtain ⟨a, d, vars1⟩ := r
          obtain ⟨dn, dt, dl, dv⟩ := d
          cases dv <;> simp_all

/-- A descriptor's effective start is at or after the cursor whenever its
explicit start (if any) is at or after the cursor. -/
theorem getD_start_ge (field : Field) (cur_loc : Nat)
    (hstart : ∀ s, field.get_start = some s → cur_loc ≤ s) :
    cur_loc ≤ (field.get_start).getD cur_loc := by
  cases hs : field.get_start with
  | none => simp
  | some s => simpa using hstart s hs

/-! ### Claims -/

/-- C1: the spec states that after resolving a Nested Block descriptor
the cursor equals start + length, so a following sibling is placed after
the block.  In the source, the `"nested"` arm of `__consume_field` never
assigns `new_loc`, so the returned cursor is the block's start byte: over
bytes [1,2,3] with schema [nested block at 0 of length 2 with no
children, then u8 "y"], the sibling "y" is resolved at offset 0 with
value 1 instead of at offset 2 = 0 + 2 with value 3. -/
theorem c1_nested_cursor_stays_at_start :
    read_binary 20
      [Field.NestedBlockField (some 0) (some (LengthSpec.lit 2)) none [] none,
       Field.IntField 8 false (some "y") none none] ⟨false⟩ none
      (Binary.file .little [1, 2, 3]) []
    = .ok ([FieldData.mk "untitled_nested_field_0x0" "nested" 0 (Value.vlist []),
            FieldData.mk "y" "u8" 0 (Value.vint 1)],
           [("y", Value.vint 1)]) := rfl

/-- C2: the spec states a view source must not let reads escape past its
own declared length.  `BinaryBlock.get_bytes` only adds its offset and
forwards to the underlying source, performing no clamping against its
own length: a block of declared length 2 over a 4-byte file returns all
4 bytes for a 4-byte request at offset 0. -/
theorem c2_view_read_escapes_window :
    Binary.get_bytes (Binary.block (Binary.file .little [1, 2, 3, 4]) 0 2) 0 4 none
      = [1, 2, 3, 4]
    ∧ Binary.get_size (Binary.block (Binary.file .little [1, 2, 3, 4]) 0 2) = 2
    ∧ (Binary.get_bytes (Binary.block (Binary.file .little [1, 2, 3, 4]) 0 2) 0 4 none).length
      = 4 :=
  ⟨rfl, rfl, rfl⟩

/-- C3: the spec states that decoding a 2-byte unsigned integer with only
1 byte remaining must fail.  In the source, `get_bytes` silently
truncates and `int.from_bytes` decodes the short buffer, so `get_u16` on
a 1-byte source returns the zero-extended value 170 of the single byte
0xAA, and a reader-level u16 field succeeds with that value and advances
the cursor by the full declared width. -/
theorem c3_short_u16_decodes_zero_extended :
    Binary.get_bytes (Binary.file .little [170]) 0 2 none = [170]
    ∧ Binary.get_u16 (Binary.file .little [170]) 0 none = 170
    ∧ read_binary 20 [Field.IntField 16 false (some "v") none none] ⟨false⟩ none
        (Binary.file .little [170]) []
      = .ok ([FieldData.mk "v" "u16" 0 (Value.vint 170)], [("v", Value.vint 170)]) :=
  ⟨rfl, rfl, rfl⟩

/-- C4: the spec states that a Struct descriptor appearing in a field
sequence is resolved by recursively consuming its children.  In the
source, `__consume_field`'s match has no `"struct"` case, so an explicit
`StructField` falls into `case _: pass`: its node carries value `None`,
its children are never consumed, and the cursor stays at the struct's
start — over a 1-byte source, a struct named "s" containing a u8 child
"a" produces the single node ("s", "struct", 0, None) with cursor 0. -/
theorem c4_struct_field_not_recursed :
    consume_struct_loop 20 ⟨false⟩ none (Binary.file .little [7]) (some 1)
      [Field.StructField none none (some "s") [Field.IntField 8 false (some "a") none none] none]
      0 []
    = .ok (0, [FieldData.mk "s" "struct" 0 Value.vnull], [("s", Value.vnull)]) := rfl

/-- C5 counterexample: the cursor can move backward between two
consecutive resolutions in one scope.  Over bytes [1,2,3], resolving
u16 "a" moves the cursor from 0 to 2; the next descriptor u8 "b" has
explicit start 0, in the past, and its resolution returns cursor 1 < 2.
The loop run shows the two steps occur consecutively in one struct
scope. -/
theorem c5_cursor_moves_backward_cex :
    consume_field 5 ⟨false⟩ none (Binary.file .little [1, 2, 3])
      (Field.IntField 16 false (some "a") none none) 0 []
      = .ok (2, FieldData.mk "a" "u16" 0 (Value.vint 513), [("a", Value.vint 513)])
    ∧ consume_field 5 ⟨false⟩ none (Binary.file .little [1, 2, 3])
        (Field.IntField 8 false (some "b") (some 0) none) 2 [("a", Value.vint 513)]
      = .ok (1, FieldData.mk "b" "u8" 0 (Value.vint 1),
          [("b", Value.vint 1), ("a", Value.vint 513)])
    ∧ consume_struct_loop 20 ⟨false⟩ none (Binary.file .little [1, 2, 3]) (some 3)
        [Field.IntField 16 false (some "a") none none,
         Field.IntField 8 false (some "b") (some 0) none] 0 []
      = .ok (1, [FieldData.mk "a" "u16" 0 (Value.vint 513),
                 FieldData.mk "b" "u8" 0 (Value.vint 1)],
             [("b", Value.vint 1), ("a", Value.vint 513)])
    ∧ 1 < 2 :=
  ⟨rfl, rfl, rfl, by decide⟩

/-- C5 amended: within one scope the cursor never moves backward across
a resolution step provided the resolved descriptor's explicit start, when
present, is not behind the cursor (the source knowingly permits
behind-the-cursor explicit starts, which are the only way backward
movement arises). -/
theorem c5_cursor_monotone_amended (fuel : Nat) (opts : ReaderOpts) (pre : Option Preproc)
    (binary : Binary) (field : Field) (cur_loc : Nat) (vars : Vars) (loc1 : Nat)
    (d : FieldData) (vars1 : Vars)
    (hstart : ∀ s, field.get_start = some s → cur_loc ≤ s)
    (h : consume_field fuel opts pre binary field cur_loc vars = .ok (loc1, d, vars1)) :
    cur_loc ≤ loc1 := by
  cases fuel with
  | zero => simp [consume_field] at h
  | succ n =>
    cases field with
    | UnknownField length start =>
      simp only [consume_field] at h
      have hsb := getD_start_ge (Field.UnknownField length start) cur_loc hstart
      have hl := finishField_loc _ _ _ _ _ _ _ _ h
      omega
    | IntField bits signed name start func =>
      simp only [consume_field] at h
      have hsb := getD_start_ge (Field.IntField bits signed name start func) cur_loc hstart
      have hl := finishField_loc _ _ _ _ _ _ _ _ h
      have hstep := intFieldStep_fst_ge binary bits signed
        ((Field.IntField bits signed name start func).get_start.getD cur_loc)
        (compose pre (Field.IntField bits signed name start func).get_preprocessor)
      omega
    | StructField start length name field_list func =>
      simp only [consume_field] at h
      have hsb := getD_start_ge (Field.StructField start length name field_list func) cur_loc
        hstart
      have hl := finishField_loc _ _ _ _ _ _ _ _ h
      omega
    | NestedBlockField start length name subfields func =>
      simp only [consume_field] at h
      have hsb := getD_start_ge (Field.NestedBlockField start length name subfields func) cur_loc
        hstart
      cases hg : get_length length vars with
      | error e =>
        simp only [hg, except_bind_error] at h
        exact Except.noConfusion h
      | ok len =>
        simp only [hg, except_bind_ok] at h
        cases hr : read_binary n subfields opts
            (compose pre (Field.NestedBlockField start length name subfields func).get_preprocessor)
            (Binary.block binary
              ((Field.NestedBlockField start length name subfields func).get_start.getD cur_loc)
              len) [] with
        | error e =>
          simp only [hr, except_bind_error] at h
          exact Except.noConfusion h
        | ok sub =>
          simp only [hr, except_bind_ok] at h
          have hl := finishField_loc _ _ _ _ _ _ _ _ h
          omega

/-- C5 witness: the amended monotonicity at a concrete input, a u8 field
with no explicit start resolved at cursor 0 over a 1-byte source. -/
theorem c5_cursor_monotone_witness : (0 : Nat) ≤ 1 :=
  c5_cursor_monotone_amended 5 ⟨false⟩ none (Binary.file .little [7])
    (Field.IntField 8 false none none none) 0 [] 1
    (FieldData.mk "untitled_u8_field_0x0" "u8" 0 (Value.vint 7)) []
    (fun _ hs => nomatch hs) rfl

/-- C6 counterexample: the scope is not fresh per read invocation.  A
first read binding "c" returns with scope [("c", 5)]; the Reader never
resets `self.vars`, so a later `read_binary` call on the same Reader
starts from that scope — shown here on an empty source, where the read
consumes nothing yet "c", bound during the first read, stays in scope
throughout (and is returned unchanged), contradicting the claimed fresh
empty scope per invocation. -/
theorem c6_scope_persists_cex :
    read_binary 20 [Field.IntField 8 false (some "c") (some 0) none] ⟨false⟩ none
      (Binary.file .little [5]) []
      = .ok ([FieldData.mk "c" "u8" 0 (Value.vint 5)], [("c", Value.vint 5)])
    ∧ read_binary 20 [Field.IntField 8 false (some "c") (some 0) none] ⟨false⟩ none
        (Binary.file .little []) [("c", Value.vint 5)]
      = .ok ([], [("c", Value.vint 5)])
    ∧ lookupVar [("c", Value.vint 5)] "c" = some (Value.vint 5)
    ∧ ([("c", Value.vint 5)] : Vars) ≠ [] :=
  ⟨rfl, rfl, rfl, List.cons_ne_nil _ _⟩

/-- C6 amended: each read operates on an independent copy of the caller's
descriptor sequence (the queue consumption is per-invocation), but the
name-binding scope is per-Reader, not per-read: a successful read returns
a scope extending the one it started from, and the Reader carries that
scope, unreset, into later read invocations. -/
theorem c6_scope_suffix_amended (fuel : Nat) (fields : List Field) (opts : ReaderOpts)
    (pre : Option Preproc) (binary : Binary) (v : Vars) (t : List FieldData) (v1 : Vars)
    (h : read_binary fuel fields opts pre binary v = .ok (t, v1)) :
    ∃ newBindings, v1 = newBindings ++ v :=
  read_binary_suffix fuel fields opts pre binary v v1 t h

/-- C6 witness: the amended scope-extension fact at a concrete input. -/
theorem c6_scope_suffix_witness :
    ∃ newBindings, ([("c", Value.vint 5)] : Vars) = newBindings ++ [] :=
  c6_scope_suffix_amended 20 [Field.IntField 8 false (some "c") (some 0) none] ⟨false⟩ none
    (Binary.file .little [5]) [] [FieldData.mk "c" "u8" 0 (Value.vint 5)]
    [("c", Value.vint 5)] rfl

/-- C7: the next-field selection policy, before the struct bound is
reached: with an empty queue, a single Unknown spanning [cur, limit) is
synthesized exactly when gap-filling is enabled and the limit is known
(with an unknown limit consumption stops regardless); with a queued
descriptor whose explicit start s is past the cursor, gap-filling
enabled synthesizes an Unknown spanning [cur, s) leaving the descriptor
queued, and gap-filling disabled dequeues the descriptor as-is.  The
concrete gap-fill scenario: a 10-byte source with schema [u8 "x" at 2]
and gap-filling on yields exactly the three siblings
Unknown(0, length 2), x at 2, Unknown(3, length 7). -/
theorem c7_next_field_policy (g : Bool) (loc limit : Nat) (f : Field) (rest : List Field)
    (s : Nat) (hlim : loc < limit) (hs : f.get_start = some s) (hgt : loc < s) :
    (get_next_field ⟨g⟩ [] loc (some limit)
      = if g then some (Field.UnknownField (limit - loc) (some loc), ([] : List Field))
        else none)
    ∧ get_next_field ⟨g⟩ [] loc none = none
    ∧ (get_next_field ⟨g⟩ (f :: rest) loc (some limit)
      = if g then some (Field.UnknownField (s - loc) (some loc), f :: rest)
        else some (f, rest))
    ∧ read_binary 20 [Field.IntField 8 false (some "x") (some 2) none] ⟨true⟩ none
        (Binary.file .little [10, 11, 12, 13, 14, 15, 16, 17, 18, 19]) []
      = .ok ([FieldData.mk "untitled_unknown_field_0x0" "unknown" 0 (Value.vbytes [10, 11]),
              FieldData.mk "x" "u8" 2 (Value.vint 12),
              FieldData.mk "untitled_unknown_field_0x3" "unknown" 3
                (Value.vbytes [13, 14, 15, 16, 17, 18, 19])],
             [("x", Value.vint 12)]) := by
  have hpe : pastEnd loc (some limit) = false := by
    simp only [pastEnd, decide_eq_false_iff_not]
    omega
  refine ⟨?_, ?_, ?_, rfl⟩
  · cases g <;> simp [get_next_field, hpe, should_fill_blanks]
  · simp [get_next_field, pastEnd]
  · cases g <;> simp [get_next_field, hpe, should_fill_blanks, hs, hgt]

/-- C7 witness: the policy at a concrete input (gap-filling on, cursor 0,
limit 5, a u8 descriptor with explicit start 2 at the head of the
queue). -/
theorem c7_next_field_policy_witness :
    (get_next_field ⟨true⟩ [] 0 (some 5)
      = if true then some (Field.UnknownField (5 - 0) (some 0), ([] : List Field))
        else none)
    ∧ get_next_field ⟨true⟩ [] 0 none = none
    ∧ (get_next_field ⟨true⟩ (Field.IntField 8 false (some "x") (some 2) none :: []) 0 (some 5)
      = if true then some (Field.UnknownField (2 - 0) (some 0),
          Field.IntField 8 false (some "x") (some 2) none :: [])
        else some (Field.IntField 8 false (some "x") (some 2) none, []))
    ∧ read_binary 20 [Field.IntField 8 false (some "x") (some 2) none] ⟨true⟩ none
        (Binary.file .little [10, 11, 12, 13, 14, 15, 16, 17, 18, 19]) []
      = .ok ([FieldData.mk "untitled_unknown_field_0x0" "unknown" 0 (Value.vbytes [10, 11]),
              FieldData.mk "x" "u8" 2 (Value.vint 12),
              FieldData.mk "untitled_unknown_field_0x3" "unknown" 3
                (Value.vbytes [13, 14, 15, 16, 17, 18, 19])],
             [("x", Value.vint 12)]) :=
  c7_next_field_policy true 0 5 (Field.IntField 8 false (some "x") (some 2) none) [] 2
    (by decide) rfl (by decide)

/-- C8: a Nested Block's length-by-name reference resolves only against
the scope of its own enclosing reader invocation: when the name is
absent from that scope the resolution fails with a KeyError rather than
finding a binding elsewhere.  Concretely, a nested block whose length
references "k", bound only inside a sibling nested block's child scope,
fails the whole read with KeyError "k"; and a nested block's child
referencing "n", bound only in the ancestor scope, fails with KeyError
"n" — each recursion starts from a fresh empty scope. -/
theorem c8_nested_length_scope (fuel : Nat) (opts : ReaderOpts) (pre : Option Preproc)
    (binary : Binary) (st : Option Nat) (nm : Option String) (subs : List Field)
    (fn : Option Preproc) (name : String) (loc : Nat) (v : Vars)
    (hmiss : lookupVar v name = none) :
    consume_field (fuel + 1) opts pre binary
      (Field.NestedBlockField st (some (LengthSpec.var name)) nm subs fn) loc v
      = .error ("KeyError: " ++ name)
    ∧ read_binary 20
        [Field.NestedBlockField (some 0) (some (LengthSpec.lit 1)) (some "sib")
          [Field.IntField 8 false (some "k") (some 0) none] none,
         Field.NestedBlockField (some 1) (some (LengthSpec.var "k")) none [] none]
        ⟨false⟩ none (Binary.file .little [5, 6]) []
      = .error ("KeyError: " ++ "k")
    ∧ read_binary 20
        [Field.IntField 8 false (some "n") (some 0) none,
         Field.NestedBlockField (some 1) (some (LengthSpec.lit 1)) none
           [Field.NestedBlockField (some 0) (some (LengthSpec.var "n")) none [] none] none]
        ⟨false⟩ none (Binary.file .little [5, 6]) []
      = .error ("KeyError: " ++ "n") := by
  refine ⟨?_, rfl, rfl⟩
  simp only [consume_field]
  simp [get_length, hmiss, except_bind_error]

/-- C8 witness: the KeyError at a concrete input — looking up "q" in an
empty scope. -/
theorem c8_nested_length_scope_witness :
    (consume_field (4 + 1) ⟨false⟩ none (Binary.file .little [])
      (Field.NestedBlockField none (some (LengthSpec.var "q")) none [] none) 0 []
      = .error ("KeyError: " ++ "q"))
    ∧ read_binary 20
        [Field.NestedBlockField (some 0) (some (LengthSpec.lit 1)) (some "sib")
          [Field.IntField 8 false (some "k") (some 0) none] none,
         Field.NestedBlockField (some 1) (some (LengthSpec.var "k")) none [] none]
        ⟨false⟩ none (Binary.file .little [5, 6]) []
      = .error ("KeyError: " ++ "k")
    ∧ read_binary 20
        [Field.IntField 8 false (some "n") (some 0) none,
         Field.NestedBlockField (some 1) (some (LengthSpec.lit 1)) none
           [Field.NestedBlockField (some 0) (some (LengthSpec.var "n")) none [] none] none]
        ⟨false⟩ none (Binary.file .little [5, 6]) []
      = .error ("KeyError: " ++ "n") :=
  c8_nested_length_scope 4 ⟨false⟩ none (Binary.file .little []) none none [] none "q" 0 [] rfl

/-- C9: re-reading with the same configuration is idempotent.  A first
read on a fresh Reader starts from the empty scope; when it succeeds
with tree t and final scope v1, the second read — which per the source
starts from the Reader's retained scope v1 — succeeds with the
structurally identical tree t (newer bindings shadow retained ones, and
every lookup a successful read performs was satisfied by bindings made
earlier in that same read). -/
theorem c9_read_idempotent (fuel : Nat) (fields : List Field) (opts : ReaderOpts)
    (pre : Option Preproc) (binary : Binary) (t : List FieldData) (v1 : Vars)
    (h : read_binary fuel fields opts pre binary [] = .ok (t, v1)) :
    read_binary fuel fields opts pre binary v1 = .ok (t, v1 ++ v1) := by
  have happ := read_binary_append fuel fields opts pre binary [] v1 v1 t h
  simpa using happ

/-- C9 witness: both reads at a concrete input, a u8 field named "a"
over a 1-byte source. -/
theorem c9_read_idempotent_witness :
    read_binary 20 [Field.IntField 8 false (some "a") none none] ⟨false⟩ none
      (Binary.file .little [7]) [("a", Value.vint 7)]
      = .ok ([FieldData.mk "a" "u8" 0 (Value.vint 7)],
          [("a", Value.vint 7)] ++ [("a", Value.vint 7)]) :=
  c9_read_idempotent 20 [Field.IntField 8 false (some "a") none none] ⟨false⟩ none
    (Binary.file .little [7]) [FieldData.mk "a" "u8" 0 (Value.vint 7)]
    [("a", Value.vint 7)] rfl

set_option maxHeartbeats 1600000 in
/-- C10: binding a name twice leaves the scope mapping the name to the
later value (dict-assignment overwrite), and a schema with two sibling
u8 fields both named "n" (values 2 then 3) followed by a nested block of
length "n" resolves the block with the latest value 3 — its gap-filled
child Unknown spans 3 bytes — and the whole read succeeds with no error
on the collision. -/
theorem c10_duplicate_name_overwrites :
    (∀ (v : Vars) (n : String) (x y : Value),
      lookupVar (bindVar n y (bindVar n x v)) n = some y)
    ∧ read_binary 20
        [Field.IntField 8 false (some "n") (some 0) none,
         Field.IntField 8 false (some "n") (some 1) none,
         Field.NestedBlockField (some 2) (some (LengthSpec.var "n")) none [] none]
        ⟨true⟩ none (Binary.file .little [2, 3, 9, 9, 9]) []
      = .ok ([FieldData.mk "n" "u8" 0 (Value.vint 2),
              FieldData.mk "n" "u8" 1 (Value.vint 3),
              FieldData.mk "untitled_nested_field_0x2" "nested" 2
                (Value.vlist [FieldData.mk "untitled_unknown_field_0x0" "unknown" 0
                  (Value.vbytes [9, 9, 9])]),
              FieldData.mk "untitled_unknown_field_0x2" "unknown" 2 (Value.vbytes [9, 9, 9])],
             [("n", Value.vint 3), ("n", Value.vint 2)]) := by
  constructor
  · intro v n x y
    simp [lookupVar, bindVar]
  · rfl

end Siesta
